import Mathlib

/-!
Verification of the mobility-toolbox-js realtime core against its
specification.  The JavaScript sources are shallowly embedded: each JS
method relevant to a claim is translated into a Lean function over an
explicit state record; machine numbers are modelled as `ℚ`/`Int`/`Nat`;
JS `undefined`/`null` become `Option`; JS falsiness of `0` and `""` is
made explicit at each use site.  External collaborators (the browser
WebSocket object, the map library geometry sampler and projector, the
canvas) appear as parameters or opaque function fields, exactly as the
spec declares them out of scope.
-/

namespace WS

/-- Request parameters of `WebSocketAPI` (`params.channel`, optional
`params.args`, optional `params.id`).  In JS the optional fields are
`undefined`; the code only tests them for truthiness, so the empty
string and `0` stand for "absent". -/
structure Params where
  channel : String
  args : String := ""
  id : Nat := 0
deriving DecidableEq, Repr

/-- JS `String.prototype.trim`: strip whitespace from both ends.
(Core `String.trim` is definitionally opaque to the kernel, so the same
operation is spelled out on the character list.) -/
def jsTrim (s : String) : String :=
  ⟨((s.data.dropWhile Char.isWhitespace).reverse.dropWhile
      Char.isWhitespace).reverse⟩

/-- JS `WebSocketAPI.getRequestString(method, params)`:
`` `${method} ${params.channel}` `` plus optional args and id, trimmed. -/
def getRequestString (method : String) (params : Params) : String :=
  jsTrim (method ++ " " ++ params.channel
    ++ (if params.args ≠ "" then " " ++ params.args else "")
    ++ (if params.id ≠ 0 then " " ++ toString params.id else ""))

/-- A message handed to `this.send`.  The source builds the strings
`` `GET ${reqStr}` ``, `` `SUB ${reqStr}` ``, `` `DEL ${source}` ``; we
keep the verb and the payload structured so that occurrences can be
counted without string surgery. -/
inductive Msg where
  | GET (reqStr : String)
  | SUB (reqStr : String)
  | DEL (source : String)
deriving DecidableEq, Repr

/-- One entry of `this.subscriptions`.  Callbacks are identified by a
number standing for JS function reference identity; the attached
websocket event listeners are not needed for the subscribe/unsubscribe
bookkeeping claims. -/
structure Subscription where
  params : Params
  cb : Nat
  quiet : Bool
deriving DecidableEq, Repr

/-- State of `WebSocketAPI` as far as `subscribe`/`unsubscribe` observe
and modify it.  `sent` is the log of messages handed to `this.send`,
assuming an open socket (the buffering of `send` is modelled separately
for the transport claim). -/
structure WSState where
  subscriptions : List Subscription
  subscribed : List (String × Bool)
  sent : List Msg
deriving DecidableEq, Repr

def initState : WSState := ⟨[], [], []⟩

/-- Reading `this.subscribed[reqStr]`: absent keys are falsy. -/
def lookupSubscribed (m : List (String × Bool)) (k : String) : Bool :=
  match m.find? (fun e => e.1 == k) with
  | some e => e.2
  | none => false

/-- Writing `this.subscribed[reqStr] = v`. -/
def setSubscribed (m : List (String × Bool)) (k : String) (v : Bool) :
    List (String × Bool) :=
  if m.any (fun e => e.1 == k) then
    m.map (fun e => if e.1 == k then (k, v) else e)
  else m ++ [(k, v)]

/-- JS `WebSocketAPI.subscribe(params, cb, errorCb, quiet)`.  The source
looks up an existing entry with `findIndex` on
`params.channel === subcr.params.channel && cb === subcr.cb`, replaces
it in place or pushes a new one, then sends `GET`/`SUB` only when the
channel is not yet marked in `this.subscribed` and the new subscription
is not quiet — and marks the channel in `this.subscribed` in that
branch regardless of `quiet`. -/
def subscribe (s : WSState) (params : Params) (cb : Nat) (quiet : Bool) :
    WSState :=
  let reqStr := getRequestString "" params
  let newSubscr : Subscription := ⟨params, cb, quiet⟩
  let subscriptions :=
    match s.subscriptions.findIdx?
        (fun subcr => params.channel == subcr.params.channel && cb == subcr.cb) with
    | some i => s.subscriptions.set i newSubscr
    | none => s.subscriptions ++ [newSubscr]
  if lookupSubscribed s.subscribed reqStr = false then
    { subscriptions := subscriptions
      subscribed := setSubscribed s.subscribed reqStr true
      sent := s.sent ++ (if quiet = false then [Msg.GET reqStr, Msg.SUB reqStr] else []) }
  else
    { s with subscriptions := subscriptions }

/-- The `DEL` guard of `unsubscribe`: `source` truthy, channel marked in
`this.subscribed`, no subscription for the channel remains, and the
removed set contains a non-quiet subscription. -/
def delCondition (s : WSState) (source : String) (cb : Option Nat) : Prop :=
  let toRemove := s.subscriptions.filter
    (fun su => su.params.channel == source && (cb.isNone || cb == some su.cb))
  let remaining := s.subscriptions.filter
    (fun su => su.params.channel != source || (cb.isSome && cb != some su.cb))
  source ≠ "" ∧ lookupSubscribed s.subscribed source = true ∧
    remaining.find? (fun su => su.params.channel == source) = none ∧
    (toRemove.find? (fun su => !su.quiet)).isSome = true

instance (s : WSState) (source : String) (cb : Option Nat) :
    Decidable (delCondition s source cb) := by
  unfold delCondition; infer_instance

/-- JS `WebSocketAPI.unsubscribe(source, cb)`.  Removes the matching
subscriptions (all of the channel when `cb` is null) and sends
`DEL source` exactly under `delCondition`, unmarking the channel. -/
def unsubscribe (s : WSState) (source : String) (cb : Option Nat) : WSState :=
  let remaining := s.subscriptions.filter
    (fun su => su.params.channel != source || (cb.isSome && cb != some su.cb))
  if delCondition s source cb then
    { subscriptions := remaining
      subscribed := setSubscribed s.subscribed source false
      sent := s.sent ++ [Msg.DEL source] }
  else
    { s with subscriptions := remaining }

/-- The identity under which `subscribe` stores and replaces
subscriptions: the channel name together with the callback reference —
the argument string takes no part in it. -/
def subKey (su : Subscription) : String × Nat := (su.params.channel, su.cb)

/-- Replace-first-or-append, the effect of the `findIndex`-and-assign
idiom of `subscribe` on the subscriptions array. -/
def upsertSubscription (channel : String) (cb : Nat) (newSubscr : Subscription) :
    List Subscription → List Subscription
  | [] => [newSubscr]
  | su :: rest =>
    if channel == su.params.channel && cb == su.cb then newSubscr :: rest
    else su :: upsertSubscription channel cb newSubscr rest

/-- External call sequence against one `WebSocketAPI` instance. -/
inductive WSEvent where
  | sub (params : Params) (cb : Nat) (quiet : Bool)
  | unsub (source : String) (cb : Option Nat)
deriving DecidableEq, Repr

def step (s : WSState) : WSEvent → WSState
  | .sub params cb quiet => subscribe s params cb quiet
  | .unsub source cb => unsubscribe s source cb

def run (s : WSState) (evs : List WSEvent) : WSState :=
  evs.foldl step s

/-- All events address the single channel `params = p0` (subscribes) or
`source = k` (unsubscribes). -/
def onChannel (p0 : Params) (k : String) : WSEvent → Bool
  | .sub p _ _ => p == p0
  | .unsub source _ => source == k

/-- Is the channel currently marked as told to the server. -/
def marked (s : WSState) (k : String) : Bool := lookupSubscribed s.subscribed k

def noUnsub (evs : List WSEvent) : Bool :=
  evs.all (fun e => match e with | .sub _ _ _ => true | .unsub _ _ => false)

/-- Quiet flag of the first subscribe call of the sequence, when any. -/
def firstSubNonQuiet (evs : List WSEvent) : Bool :=
  match evs.find? (fun e => match e with | .sub _ _ _ => true | _ => false) with
  | some (.sub _ _ q) => !q
  | _ => false

end WS

namespace WS

/-- An inbound server frame as `WebSocketAPI.listen` reads it after
`JSON.parse`: a `source` string, an optional numeric `client_reference`
(`0` stands for absent, matching the truthiness test `!params.id`), and
— for `source == "buffer"` frames — a `content` list of inner frames in
which the backend may leave trailing `null` entries. -/
inductive Frame where
  | mk (source : String) (clientReference : Nat) (content : List (Option Frame))

def Frame.source : Frame → String
  | .mk s _ _ => s

def Frame.clientReference : Frame → Nat
  | .mk _ r _ => r

def Frame.content : Frame → List (Option Frame)
  | .mk _ _ c => c

/-- The `source` a listener matches against: `params.channel` plus,
when `params.args` is set, a space and the args string. -/
def channelKeySource (params : Params) : String :=
  params.channel ++ (if params.args ≠ "" then " " ++ params.args else "")

/-- The frame-matching rule of the `onMessage` wrapper built by
`WebSocketAPI.listen`: a buffer frame is unpacked into its content list,
any other frame stands for itself; an element is propagated to the
callback when it is non-null, its `source` equals the listener key, and
`params.id` is absent or equals the `client_reference` field of the outer frame.
The returned list is, in order, the arguments of the `cb(content)`
calls. -/
def deliveredContents (params : Params) (data : Frame) : List Frame :=
  let source := channelKeySource params
  let contents : List (Option Frame) :=
    if data.source == "buffer" then data.content else [some data]
  contents.filterMap (fun c =>
    match c with
    | some content =>
        if content.source == source &&
            (params.id == 0 || params.id == data.clientReference) then
          some content
        else none
    | none => none)

end WS

namespace WS

/-- JS function reference identity for the `get` machinery: stored
request callbacks are user functions, while `once(cb)` creates a fresh
closure that is reference-equal to no existing function. -/
inductive CbRef where
  | user (n : Nat)
  | wrapper (n : Nat)
deriving DecidableEq, Repr

/-- A `message` event listener attached by `listen` on behalf of `get`:
the wrapper identity, the identity of the companion error wrapper, the
request parameters it matches with, and the user callback wrapped by
`once`. -/
structure RListener where
  lid : Nat
  elid : Nat
  params : Params
  requestString : String
  cb : Nat
deriving Repr

/-- One entry of `this.requests`. -/
structure Request where
  params : Params
  requestString : String
  cb : CbRef
  mlid : Nat
  elid : Nat
deriving Repr

/-- State of the one-shot `get` machinery: the request registry, the
`message` listeners and the `error`/`close` listeners attached to the
websocket (in attachment order), the log of strings handed to `send`,
the log of user-callback invocations, and the count of TypeErrors
thrown inside a `once` wrapper (`this.requests[-1]` destructuring). -/
structure GetState where
  requests : List Request
  msgListeners : List RListener
  errListeners : List Nat
  sent : List String
  calls : List Nat
  errors : Nat
  nextId : Nat

def initGetState : GetState := ⟨[], [], [], [], [], 0, 0⟩

/-- JS `WebSocketAPI.unlisten(params, cb)` as invoked from `listen` inside
`get`: removes the websocket listeners of every stored request on the
same channel whose stored callback is reference-equal to `cb`.  (The
subscriptions half of the JS filter is empty in the pure-`get`
scenarios modelled here.) -/
def unlistenRequests (s : GetState) (channel : String) (cbArg : CbRef) :
    GetState :=
  let matching := s.requests.filter
    (fun r => r.params.channel == channel && r.cb == cbArg)
  { s with
    msgListeners :=
      s.msgListeners.filter (fun l => !(matching.any (fun r => r.mlid == l.lid)))
    errListeners :=
      s.errListeners.filter (fun e => !(matching.any (fun r => r.elid == e))) }

/-- JS `WebSocketAPI.get(params, cb, errorCb)`: sends the `GET` request
string, registers (via `listen`) a fresh `onMessage` wrapper around
`once(cb)` plus an error wrapper, and stores the request — replacing an
entry with the same request string and callback, else pushing.  The
websocket listeners of the replaced entry are not removed. -/
def get (s : GetState) (params : Params) (cb : Nat) : GetState :=
  let requestString := getRequestString "GET" params
  let s0 := { s with sent := s.sent ++ [requestString] }
  let onceId := s0.nextId
  let s1 := unlistenRequests s0 params.channel (CbRef.wrapper onceId)
  let mlid := s0.nextId + 1
  let elid := s0.nextId + 2
  let l : RListener := ⟨mlid, elid, params, requestString, cb⟩
  let s2 := { s1 with
    msgListeners := s1.msgListeners ++ [l]
    errListeners := s1.errListeners ++ [elid]
    nextId := s0.nextId + 3 }
  let newReq : Request := ⟨params, requestString, CbRef.user cb, mlid, elid⟩
  { s2 with
    requests :=
      match s2.requests.findIdx?
          (fun r => requestString == r.requestString && CbRef.user cb == r.cb) with
      | some i => s2.requests.set i newReq
      | none => s2.requests ++ [newReq] }

/-- The body of a `once(cb)` wrapper firing on one matching content:
invoke the user callback, then look the request up by request string
and callback; if found, detach its websocket listeners and splice it
out; if not (`findIndex` returned `-1`), the destructuring of
`this.requests[-1]` throws a TypeError. -/
def fireOnce (s : GetState) (l : RListener) : GetState :=
  let s1 := { s with calls := s.calls ++ [l.cb] }
  match s1.requests.findIdx?
      (fun r => l.requestString == r.requestString && CbRef.user l.cb == r.cb) with
  | some i =>
    match s1.requests[i]? with
    | some r =>
        { s1 with
          msgListeners := s1.msgListeners.filter (fun x => x.lid != r.mlid)
          errListeners := s1.errListeners.filter (fun x => x != r.elid)
          requests := s1.requests.eraseIdx i }
    | none => { s1 with errors := s1.errors + 1 }
  | none => { s1 with errors := s1.errors + 1 }

/-- The `contents.forEach` loop of the `onMessage` wrapper: each
non-null matching content fires the `once` wrapper; a TypeError thrown
inside `once` aborts the remaining iterations. -/
def processContents (l : RListener) (data : Frame) :
    GetState → List (Option Frame) → GetState
  | s, [] => s
  | s, c :: rest =>
    match c with
    | some content =>
      if content.source == channelKeySource l.params &&
          (l.params.id == 0 || l.params.id == data.clientReference) then
        let s1 := fireOnce s l
        if s.errors < s1.errors then s1 else processContents l data s1 rest
      else processContents l data s rest
    | none => processContents l data s rest

/-- Run one attached `onMessage` wrapper on an inbound frame. -/
def runListener (s : GetState) (l : RListener) (data : Frame) : GetState :=
  let contents : List (Option Frame) :=
    if data.source == "buffer" then data.content else [some data]
  processContents l data s contents

/-- Deliver a `message` event: the DOM dispatches to the listeners
attached at event time, in order, skipping any listener that a previous
wrapper detached during this very dispatch. -/
def dispatchGo (data : Frame) : GetState → List RListener → GetState
  | s, [] => s
  | s, l :: rest =>
    let s1 := if s.msgListeners.any (fun x => x.lid == l.lid) then
        runListener s l data
      else s
    dispatchGo data s1 rest

def dispatchMessage (s : GetState) (data : Frame) : GetState :=
  dispatchGo data s s.msgListeners

end WS

namespace WS

/-- Transport-level state observed by `WebSocketAPI.send`:
`hasWebsocket` is `this.websocket !== null`, `isOpen` its readyState,
`messagesOnOpen` the pending-message buffer, `flushListeners` the
`open` event listeners added by `send` (each closure captures the one
message it will flush), and `wireSent` the strings actually handed to
`this.websocket.send`. -/
structure SendState where
  hasWebsocket : Bool
  isOpen : Bool
  messagesOnOpen : List String
  flushListeners : List String
  wireSent : List String
deriving DecidableEq, Repr

/-- JS `WebSocketAPI.send(message)`: drop the message when there is no
socket; while not open, buffer it unless an identical message is
already pending, and register an `open` listener that will flush it;
while open, send it unless it is still listed as pending. -/
def send (s : SendState) (message : String) : SendState :=
  if s.hasWebsocket = false then s
  else if s.isOpen = false then
    if s.messagesOnOpen.contains message then s
    else { s with
      messagesOnOpen := s.messagesOnOpen ++ [message]
      flushListeners := s.flushListeners ++ [message] }
  else if s.messagesOnOpen.contains message then s
  else { s with wireSent := s.wireSent ++ [message] }

/-- The `open` event of the socket: every listener registered by `send`
runs in registration order; each clears `messagesOnOpen` and sends its
captured message. -/
def fireOpen (s : SendState) : SendState :=
  { s with
    isOpen := true
    messagesOnOpen := []
    wireSent := s.wireSent ++ s.flushListeners }

/-- Bbox bookkeeping of `RealtimeAPI`: the property setter compares the
new value with the stored one (`JSON.stringify` equality) and forwards
the `BBOX` command with the space-joined bbox values to
`wsApi.send` only on change. -/
structure RTSendState where
  ws : SendState
  bbox : Option (List ℚ)
deriving Repr

def bboxMsg (b : List ℚ) : String :=
  "BBOX " ++ " ".intercalate (b.map toString)

def setBbox (s : RTSendState) (newBbox : List ℚ) : RTSendState :=
  if s.bbox = some newBbox then s
  else { bbox := some newBbox, ws := send s.ws (bboxMsg newBbox) }

/-- For comparison with the words of the spec: keep the first occurrence of
every message, in order. -/
def dedupFirst (msgs : List String) : List String :=
  msgs.foldl (fun acc m => if acc.contains m then acc else acc ++ [m]) []

end WS

namespace RT

/-- Lifecycle state of `RealtimeAPI` over its `WebSocketAPI`:
whether `wsApi.websocket` is non-null, whether the reconnecting
`onclose` handler is attached, whether the keep-alive `setInterval` and
the reconnect `setTimeout` are armed, and how many `WebSocket` objects
have been constructed. -/
structure RTState where
  wsExists : Bool
  onCloseAttached : Bool
  pingArmed : Bool
  reconnectArmed : Bool
  socketsCreated : Nat
deriving DecidableEq, Repr

def initRT : RTState := ⟨false, false, false, false, 0⟩

/-- JS `WebSocketAPI.close()`: when a socket exists, detach its `onclose`
handler first, close it and null the handle.  Neither the ping interval
nor a pending reconnect timeout is touched. -/
def wsClose (s : RTState) : RTState :=
  if s.wsExists then { s with onCloseAttached := false, wsExists := false } else s

/-- JS `RealtimeAPI.open()` (named `rtOpen` as `open` is a Lean keyword):
`this.close()`, then `wsApi.connect(url, …)` constructs a fresh
`WebSocket`, then the reconnecting `onclose` handler is attached. -/
def rtOpen (s : RTState) : RTState :=
  let s1 := wsClose s
  { s1 with
    wsExists := true
    onCloseAttached := true
    socketsCreated := s1.socketsCreated + 1 }

/-- The `open` event of the socket reaching `RealtimeAPI.onOpen`: replays
projection/bbox/buffer and (re)arms the keep-alive ping interval. -/
def onOpen (s : RTState) : RTState :=
  { s with pingArmed := true }

/-- JS `RealtimeAPI.close()` merely forwards to `wsApi.close()`. -/
def close (s : RTState) : RTState := wsClose s

/-- A server-initiated `close` event: with the handler attached,
`RealtimeAPI.onClose` clears the ping interval, clears any pending
reconnect timeout and schedules a new reconnect timeout. -/
def serverClose (s : RTState) : RTState :=
  if s.onCloseAttached then
    { s with pingArmed := false, reconnectArmed := true }
  else s

/-- The reconnect timeout firing: `this.open()`. -/
def fireReconnect (s : RTState) : RTState :=
  if s.reconnectArmed then rtOpen { s with reconnectArmed := false } else s

end RT

namespace VehiclePos

/-- One entry of `time_intervals`: `[timestamp, arcFraction, rotation?]`.
Rotation may be absent (tralis only). -/
structure TimeInterval where
  time : ℚ
  frac : ℚ
  rot : Option ℚ
deriving DecidableEq, Repr

/-- The slice of an OpenLayers `LineString` the interpolation code uses:
its coordinate list (for `getFirstCoordinate`/`getLastCoordinate`) and
the arc-length sampler `getCoordinateAt`, an external map-library
function kept opaque. -/
structure LineGeom where
  coords : List (ℚ × ℚ)
  getCoordinateAt : ℚ → ℚ × ℚ

def LineGeom.getFirstCoordinate (g : LineGeom) : Option (ℚ × ℚ) :=
  g.coords.head?

def LineGeom.getLastCoordinate (g : LineGeom) : Option (ℚ × ℚ) :=
  g.coords.getLast?

/-- The trajectory geometry: `ol/geom/Point` or `ol/geom/LineString`. -/
inductive Geometry where
  | point (c : ℚ × ℚ)
  | lineString (g : LineGeom)

/-- Result record `{ coord, rotation }` of `getVehiclePosition`;
`none` is JS `undefined`. -/
structure VPosition where
  coord : Option (ℚ × ℚ)
  rot : Option ℚ
deriving DecidableEq, Repr

/-- The `for (let j = 0; j < intervals.length - 1; …)` scan of
`getVehiclePosition`: find the first adjacent pair with
`start <= now && now <= end` and interpolate inside it. -/
def interpolateScan (now : ℚ) (g : LineGeom) :
    List TimeInterval → VPosition
  | i1 :: i2 :: rest =>
    if i1.time ≤ now ∧ now ≤ i2.time then
      let timeFrac := min ((now - i1.time) / (i2.time - i1.time)) 1
      let geomFrac := timeFrac * (i2.frac - i1.frac) + i1.frac
      ⟨some (g.getCoordinateAt geomFrac), i1.rot⟩
    else interpolateScan now g (i2 :: rest)
  | _ => ⟨none, none⟩

/-- JS `getVehiclePosition(now, trajectory, noInterpolate)` from
`src/common/utils/getVehiclePosition.js`.  The JS default
`timeIntervals || [[]]` yields an interval whose fields are all
`undefined`, for which every comparison is false and the scan is empty;
the empty list reproduces that outcome.  An unsupported geometry type
only logs, which has no counterpart here because the embedded geometry
type is exact. -/
def getVehiclePosition (now : ℚ) (coordinate : Option (ℚ × ℚ))
    (geometry : Geometry) (timeIntervals : Option (List TimeInterval))
    (noInterpolate : Bool) : VPosition :=
  if noInterpolate ∧ coordinate.isSome then ⟨coordinate, none⟩
  else
    match geometry with
    | .point c => ⟨some c, none⟩
    | .lineString g =>
      let intervals := timeIntervals.getD []
      match intervals.head?, intervals.getLast? with
      | some firstInterval, some lastInterval =>
        if now < firstInterval.time then
          ⟨g.getFirstCoordinate, firstInterval.rot⟩
        else if now > lastInterval.time then
          ⟨g.getLastCoordinate, lastInterval.rot⟩
        else
          interpolateScan now g intervals
      | _, _ => ⟨none, none⟩

end VehiclePos

namespace Departures

/-- A departure record as `RealtimeAPI.filterDepartures` reads it:
`time` in epoch milliseconds (already normalised to a number), `state`,
`platform`, destination list `to` (named `toDest`, as `to` is a Lean
token), the line name `line.name` (`lineName`), and the `cancelled`
flag the function may set. -/
structure Departure where
  time : Int
  state : String
  platform : String
  toDest : List String
  lineName : String
  cancelled : Bool
deriving DecidableEq, Repr

/-- Modelled from the spec: `compareDepartures` (imported from
`common/utils/compareDepartures`, whose source file is not in the
repository snapshot) sorts departures ascending — "sort by
(arrival-or-departure time, tie-break rule below)"; with a single
scheduled-time field both the `sortByMinArrivalTime` tie-break and the
primary comparison reduce to comparing `time`. -/
def compareDepartures (a b : Departure) (_sortByMinArrivalTime : Bool) : Int :=
  a.time - b.time

/-- Character-list prefix test. -/
def charsPrefix : List Char → List Char → Bool
  | [], _ => true
  | _ :: _, [] => false
  | p :: ps, c :: cs => p == c && charsPrefix ps cs

/-- Substring occurrence on character lists. -/
def charsContain (pat : List Char) : List Char → Bool
  | [] => charsPrefix pat []
  | c :: cs => charsPrefix pat (c :: cs) || charsContain pat cs

/-- JS `/(STOP_CANCELLED|JOURNEY_CANCELLED)/.test(state)`: the regex holds
exactly when one of the two words occurs in `state`. -/
def cancelledPattern (state : String) : Bool :=
  charsContain "STOP_CANCELLED".data state.data ||
    charsContain "JOURNEY_CANCELLED".data state.data

/-- The body of the `for (let i = departures.length - 1; i >= 0; …)`
loop of `filterDepartures`.  The sorted array is consumed from its end,
so the argument list here is the sorted list reversed; `unshift`
prepends, so the accumulator is rebuilt in ascending order.  Inside the
window: an already-boarding platform hides the record, a same
destination head, same line name and a time gap under one second from
the previously kept record hides it, a cancellation pattern sets
`cancelled`; `previousDeparture` is only updated for kept records. -/
def filterLoop (past future : Int) :
    List Departure → List String → Option Departure → List Departure →
      List Departure
  | [], _, _, acc => acc
  | d :: rest, platformsBoarding, prev, acc =>
    let t := d.time
    if past < t ∧ t < future then
      let isDupBoarding := d.state = "BOARDING" ∧ d.platform ∈ platformsBoarding
      let platforms1 :=
        if d.state = "BOARDING" ∧ d.platform ∉ platformsBoarding then
          platformsBoarding ++ [d.platform]
        else platformsBoarding
      let d1 := if isDupBoarding then { d with state := "HIDDEN" } else d
      let isPairDup : Bool :=
        match prev with
        | some p =>
            d.toDest.head? == p.toDest.head? && decide ((t - p.time).natAbs < 1000) &&
              d.lineName == p.lineName
        | none => false
      let d2 := if isPairDup then { d1 with state := "HIDDEN" } else d1
      let d3 := if cancelledPattern d2.state then { d2 with cancelled := true } else d2
      filterLoop past future rest platforms1 (some d3) (d3 :: acc)
    else
      filterLoop past future rest platformsBoarding prev acc

/-- Insert keeping existing equal-or-smaller elements first: the
building block of a stable ascending sort, matching the stable
`Array.prototype.sort` of the host engine. -/
def insertStable (le : Departure → Departure → Bool) (a : Departure) :
    List Departure → List Departure
  | [] => [a]
  | b :: t =>
    if le a b && !le b a then a :: b :: t else b :: insertStable le a t

/-- Stable ascending sort by repeated insertion. -/
def sortStable (le : Departure → Departure → Bool) (l : List Departure) :
    List Departure :=
  l.foldl (fun acc a => insertStable le a acc) []

/-- JS `RealtimeAPI.filterDepartures(depObject, sortByMinArrivalTime)`,
with the wall clock made explicit: collect the records, sort them with
`compareDepartures`, compute the `[now - maxDepartureAge, now +
maxDepartureAge]` window in minutes, and run the backwards loop. -/
def filterDepartures (now : Int) (maxDepartureAge : Int)
    (depObject : List Departure) (sortByMinArrivalTime : Bool) :
    List Departure :=
  let departures := sortStable
    (fun a b => compareDepartures a b sortByMinArrivalTime ≤ 0) depObject
  let future := now + maxDepartureAge * 60000
  let past := now - maxDepartureAge * 60000
  filterLoop past future departures.reverse [] none []

end Departures

namespace Tracker

open VehiclePos

/-- A stored trajectory as `Tracker.renderTrajectories` reads and
mutates it.  The geometry is a `LineString` (the `Point` branch of the
source calls `geometry.getCoordinate()`, a method OpenLayers points do
not have, and the claims under verification concern polylines).  The
canvas-only fields (`px_before`, `py_before`) feed the redraw policy and
the drawing sink, both external to the claims, and are omitted. -/
structure TTraj where
  id : Nat
  geometry : LineGeom
  timeIntervals : List TimeInterval
  timeOffset : ℚ
  coordinate : Option (ℚ × ℚ)
  rendered : Bool
  rot : Option ℚ
  endFraction : ℚ

/-- The interval search of `Tracker.renderTrajectories` (lines 222-233):
walk adjacent pairs; on `start <= now && now <= end` stop with the pair;
the loop variable `rotation` keeps the first element of the last pair
read, matched or not. -/
def scanIntervals (now : ℚ) :
    List TimeInterval → Option (TimeInterval × TimeInterval) × Option ℚ
  | i1 :: i2 :: rest =>
    if i1.time ≤ now ∧ now ≤ i2.time then (some (i1, i2), i1.rot)
    else
      match rest with
      | [] => (none, i1.rot)
      | _ => scanIntervals now (i2 :: rest)
  | _ => (none, none)

/-- The per-trajectory body of the render loop: the filter test, the
interval search, the `LineString` interpolation with its pin-to-first /
pin-to-last fallbacks, then — when a coordinate was produced — the
projection through the externally supplied
`getPixelFromCoordinate`; only a non-null pixel sets `rendered`.
`if (start && end)` tests JS truthiness, so a matched pair whose
timestamp is the number `0` falls through to the fallbacks, as in the
source. -/
def renderStep (interpolate : Bool) (filterF : Option (TTraj → Bool))
    (project : ℚ × ℚ → Option (ℚ × ℚ)) (currTime : ℚ) (traj : TTraj) :
    TTraj :=
  if (match filterF with | some f => !f traj | none => false) then traj
  else if traj.timeIntervals.length ≤ 1 then traj
  else
    let now := currTime - traj.timeOffset
    let scanned := scanIntervals now traj.timeIntervals
    let matchedPair :=
      match scanned.1 with
      | some (i1, i2) => if i1.time ≠ 0 ∧ i2.time ≠ 0 then some (i1, i2) else none
      | none => none
    let interp :
        Option (ℚ × ℚ) × Option ℚ × ℚ :=
      match matchedPair with
      | some (i1, i2) =>
        let timeFrac :=
          if interpolate then min ((now - i1.time) / (i2.time - i1.time)) 1 else 0
        let geomFrac :=
          if interpolate then timeFrac * (i2.frac - i1.frac) + i1.frac else 0
        (some (traj.geometry.getCoordinateAt geomFrac), i1.rot, timeFrac)
      | none =>
        match traj.timeIntervals.head?, traj.timeIntervals.getLast? with
        | some firstInterval, some lastInterval =>
          if now < firstInterval.time then
            (traj.geometry.getFirstCoordinate, firstInterval.rot, 0)
          else if now > lastInterval.time then
            (traj.geometry.getLastCoordinate, lastInterval.rot, 1)
          else (none, scanned.2, 0)
        | _, _ => (none, scanned.2, 0)
    let t1 := { traj with rot := interp.2.1, endFraction := interp.2.2 }
    match interp.1 with
    | none => t1
    | some c =>
      let t2 := { t1 with coordinate := some c }
      match project c with
      | none => t2
      | some _ => { t2 with rendered := true }

/-- The pieces of `Tracker` state the rendered-trajectories claims
observe. -/
structure TrackerState where
  trajectories : List TTraj
  renderedTrajectories : List TTraj
  interpolate : Bool
  filterF : Option (TTraj → Bool)

/-- JS `Tracker.renderTrajectories(currTime, size, resolution)`: run the
per-trajectory loop (each iteration touches only `trajectories[i]`, so
the reversed iteration order is immaterial) and finish with
`this.renderedTrajectories = this.trajectories.filter((t) => t.rendered)`. -/
def renderTrajectories (st : TrackerState)
    (project : ℚ × ℚ → Option (ℚ × ℚ)) (currTime : ℚ) : TrackerState :=
  let trajs := st.trajectories.map
    (renderStep st.interpolate st.filterF project currTime)
  { st with
    trajectories := trajs
    renderedTrajectories := trajs.filter (fun t => t.rendered) }

/-- JS `Tracker.getRenderedTrajectories()`. -/
def getRenderedTrajectories (st : TrackerState) : List TTraj :=
  st.renderedTrajectories

/-- JS `ol/extent` `buffer(extent, value)`. -/
def bufferExtent (e : ℚ × ℚ × ℚ × ℚ) (value : ℚ) : ℚ × ℚ × ℚ × ℚ :=
  (e.1 - value, e.2.1 - value, e.2.2.1 + value, e.2.2.2 + value)

/-- JS `ol/extent` `containsCoordinate(extent, coordinate)`. -/
def containsCoordinate (e : ℚ × ℚ × ℚ × ℚ) (c : ℚ × ℚ) : Bool :=
  e.1 ≤ c.1 && c.1 ≤ e.2.2.1 && e.2.1 ≤ c.2 && c.2 ≤ e.2.2.2

/-- The vehicle-collecting loop of
`TrackerLayerMixin.getVehiclesAtCoordinate`: push every trajectory whose
current coordinate lies in the extent, and break when — after a push —
`vehicles.length === nb`.  `nb = none` is the default `Infinity`, which
the equality never reaches. -/
def collectVehicles (ext : ℚ × ℚ × ℚ × ℚ) (nb : Option Nat) :
    List TTraj → List TTraj → List TTraj
  | [], vehicles => vehicles
  | t :: rest, vehicles =>
    let vehicles1 :=
      match t.coordinate with
      | some c => if containsCoordinate ext c then vehicles ++ [t] else vehicles
      | none => vehicles
    if nb = some vehicles1.length then vehicles1
    else collectVehicles ext nb rest vehicles1

/-- JS `TrackerLayerMixin.getVehiclesAtCoordinate(coordinate, resolution,
nb)` over the stored trajectories of the tracker. -/
def getVehiclesAtCoordinate (coordinate : ℚ × ℚ) (resolution : ℚ)
    (nb : Option Nat) (trajectories : List TTraj) : List TTraj :=
  let ext := bufferExtent
    (coordinate.1, coordinate.2, coordinate.1, coordinate.2) (10 * resolution)
  collectVehicles ext nb trajectories []

/-- Does the current coordinate of a trajectory lie in the query extent. -/
def hits (ext : ℚ × ℚ × ℚ × ℚ) (t : TTraj) : Prop :=
  ∃ c, t.coordinate = some c ∧ containsCoordinate ext c = true

end Tracker

/-! Concrete instances used by the scenario theorems and witnesses. -/

/-- A plain channel with no argument and no request id. -/
def vehicleParams : WS.Params := ⟨"vehicle", "", 0⟩

/-- A quiet subscribe followed by a non-quiet subscribe with a different
handler, all on the same channel key. -/
def quietFirstEvents : List WS.WSEvent :=
  [.sub vehicleParams 7 true, .sub vehicleParams 8 false]

/-- Subscribe/unsubscribe round trip with two handlers. -/
def roundTripEvents : List WS.WSEvent :=
  [.sub vehicleParams 0 false, .sub vehicleParams 1 false,
   .unsub "vehicle" (some 0), .unsub "vehicle" (some 1)]

/-- Same channel and handler, two different argument strings. -/
def argAParams : WS.Params := ⟨"c", "a", 0⟩

def argBParams : WS.Params := ⟨"c", "b", 0⟩

/-- A listener on channel `vehicle` with argument `123`. -/
def bufferListenerParams : WS.Params := ⟨"vehicle", "123", 0⟩

def innerMatch : WS.Frame := .mk "vehicle 123" 0 []

def innerOther : WS.Frame := .mk "station" 0 []

/-- A `source:"buffer"` frame bundling a matching inner frame, a
non-matching one and a trailing backend `null`. -/
def bufferFrame : WS.Frame := .mk "buffer" 0 [some innerMatch, some innerOther, none]

/-- Two identical one-shot gets, then two matching responses. -/
def getParams : WS.Params := ⟨"stopsequence", "", 0⟩

def doubleGetState : WS.GetState :=
  WS.get (WS.get WS.initGetState getParams 3) getParams 3

def stopSeqFrame : WS.Frame := .mk "stopsequence" 0 []

def afterFirstResponse : WS.GetState := WS.dispatchMessage doubleGetState stopSeqFrame

def afterSecondResponse : WS.GetState := WS.dispatchMessage afterFirstResponse stopSeqFrame

/-- A connected but not yet open realtime transport with no bbox set. -/
def closedTransport : WS.RTSendState := ⟨⟨true, false, [], [], []⟩, none⟩

/-- A polyline from the origin to `(1, 0)` with one single time
interval at `t = 100` carrying rotation `5`; the arc sampler is never
reached in the single-interval scenarios. -/
def singleIntervalGeom : VehiclePos.LineGeom := ⟨[(0, 0), (1, 0)], fun _ => (0, 0)⟩

def singleInterval : VehiclePos.TimeInterval := ⟨100, 0, some 5⟩

/-- Two `BOARDING` records at platform `3`, ten seconds apart, both
inside the departure window around `now = 1000000000`. -/
def earlyBoarding : Departures.Departure := ⟨1000000000, "BOARDING", "3", ["X"], "L1", false⟩

def lateBoarding : Departures.Departure := ⟨1000010000, "BOARDING", "3", ["Y"], "L1", false⟩

/-- A trajectory interpolating along `(0,0) – (10,0)` between `t = 10`
and `t = 100`. -/
def movingTraj : Tracker.TTraj :=
  ⟨7, ⟨[(0, 0), (10, 0)], fun _ => (5, 0)⟩, [⟨10, 0, none⟩, ⟨100, 1, none⟩],
    0, none, false, none, 0⟩

def movingStore : Tracker.TrackerState := ⟨[movingTraj], [], true, none⟩

/-- First render pass: the projector yields a pixel. -/
def passOne : Tracker.TrackerState :=
  Tracker.renderTrajectories movingStore (fun _ => some (3, 3)) 50

/-- Second render pass: the projector yields null for everything. -/
def passTwo : Tracker.TrackerState :=
  Tracker.renderTrajectories passOne (fun _ => none) 50

/-- A stored vehicle sitting exactly at the query coordinate. -/
def storedVehicle : Tracker.TTraj :=
  ⟨9, ⟨[(0, 0)], fun _ => (0, 0)⟩, [], 0, some (0, 0), false, none, 0⟩

/-! Counterexamples and bug evaluations at concrete inputs. -/

/-- C1, counterexample.  On the sequence quiet-subscribe then
non-quiet-subscribe for channel key `vehicle`, the claim asserts exactly
one `GET vehicle` at the (second, first non-quiet) subscribe; the code
sends nothing at all, because the quiet first subscribe already marked
the channel in `this.subscribed`. -/
theorem quiet_first_subscribe_sends_no_get :
    ¬ ((WS.run WS.initState quietFirstEvents).sent.count
        (WS.Msg.GET "vehicle") = 1) := by
  decide

/-- C2, counterexample.  Subscribing `(channel "c", args "a")` and then
`(channel "c", args "b")` with the same handler produces two distinct
channel keys (`c a` and `c b`), so by the claim both registrations
should coexist; the code keys the registry on the channel name alone
and replaces the first entry, leaving a single subscription whose args
are `b`. -/
theorem different_args_replace_subscription :
    (WS.subscribe (WS.subscribe WS.initState argAParams 0 false)
        argBParams 0 false).subscriptions = [⟨argBParams, 0, false⟩] := by
  decide

/-- C4, bug evaluation.  Two identical `get` calls followed by two
matching responses: the request entry is replaced, but the first
wrapper listener is never detached; the first response fires the user
callback once and removes the second wrapper, the second response fires
the user callback again through the leaked first wrapper and then
throws a TypeError on `this.requests[-1]`.  The callback runs twice,
contradicting the one-shot contract. -/
theorem double_get_leaks_listener_and_fires_twice :
    afterFirstResponse.calls = [3] ∧
      afterFirstResponse.requests.length = 0 ∧
      afterFirstResponse.msgListeners.length = 1 ∧
      afterSecondResponse.calls = [3, 3] ∧
      afterSecondResponse.errors = 1 := by
  decide

/-- C5, counterexample.  Setting the viewport to two different values
while the socket is connecting buffers two distinct `BBOX` strings, and
the open event flushes both — not the single command the claim
asserts. -/
theorem two_bbox_values_flush_two_commands :
    ¬ ((WS.fireOpen (WS.setBbox (WS.setBbox closedTransport
          [0, 0, 100, 100]) [0, 0, 50, 50]).ws).wireSent.length = 1) := by
  decide

/-- C6, bug evaluation.  A server-initiated close schedules the
reconnect timeout; a deliberate `close()` right after detaches the
close handler but clears neither timer, so the pending reconnect fires
and constructs a second socket after teardown; likewise, a deliberate
close after a plain open leaves the keep-alive interval armed
forever. -/
theorem deliberate_close_leaves_timers_armed :
    (RT.close (RT.serverClose (RT.onOpen (RT.rtOpen RT.initRT)))).reconnectArmed
        = true ∧
      (RT.fireReconnect (RT.close (RT.serverClose (RT.onOpen
          (RT.rtOpen RT.initRT))))).socketsCreated = 2 ∧
      (RT.close (RT.onOpen (RT.rtOpen RT.initRT))).pingArmed = true := by
  decide

/-- C7, counterexample.  On a polyline whose endpoints differ, a
trajectory with exactly one time interval is not a fixed point: before
the interval timestamp the position is the first coordinate, after it
the last coordinate, and at the timestamp itself no position is
computed at all. -/
theorem single_interval_is_not_a_fixed_point :
    VehiclePos.getVehiclePosition 50 none (.lineString singleIntervalGeom)
        (some [singleInterval]) false = ⟨some (0, 0), some 5⟩ ∧
      VehiclePos.getVehiclePosition 150 none (.lineString singleIntervalGeom)
        (some [singleInterval]) false = ⟨some (1, 0), some 5⟩ ∧
      VehiclePos.getVehiclePosition 100 none (.lineString singleIntervalGeom)
        (some [singleInterval]) false = ⟨none, none⟩ ∧
      ((0 : ℚ), (0 : ℚ)) ≠ ((1 : ℚ), (0 : ℚ)) := by
  refine ⟨by decide, by decide, by decide, by decide⟩

/-- C8, counterexample.  Two `BOARDING` records at platform `3`, ten
seconds apart and inside the window: the code hides the EARLIER one
(the backwards loop registers the platform of the later record first), while
the claim asserts the later one is hidden. -/
theorem earlier_boarding_record_is_hidden :
    Departures.filterDepartures 1000000000 30 [earlyBoarding, lateBoarding]
        false =
      [{ earlyBoarding with state := "HIDDEN" }, lateBoarding] := by
  decide

unseal Rat.add Rat.sub Rat.mul Rat.inv in
/-- C9, counterexample.  A trajectory rendered on the first pass keeps
its `rendered` flag when the projector returns null on the second pass,
so it stays in `renderedTrajectories` although the most recent
projection failed. -/
theorem stale_rendered_flag_survives_null_projection :
    passTwo.renderedTrajectories.map (fun t => t.id) = [7] ∧
      passTwo.trajectories.map (fun t => t.id) = [7] := by
  refine ⟨by decide, by decide⟩

unseal Rat.add Rat.sub Rat.mul Rat.inv in
/-- C10, counterexample.  With limit `nb = 0` and a stored vehicle at
the query point, the break test `vehicles.length === nb` runs only
after a push, so the returned list has one element — more than the
limit. -/
theorem zero_limit_returns_a_vehicle :
    ¬ ((Tracker.getVehiclesAtCoordinate (0, 0) 1 (some 0)
        [storedVehicle]).length ≤ 0) := by
  decide

/-! C3: buffer frames are unpacked and redispatched element-wise. -/

/-- C3 (confirmed).  For a frame with `source == "buffer"`, an inner
frame is delivered exactly when it occurs (non-null) in the content
list, its `source` equals the channel key of the listener, and the listener
either correlates no request id or its id equals the outer
frame `client_reference`; the buffer wrapper itself is never delivered. -/
theorem listen_buffer_redispatch (params : WS.Params) (data : WS.Frame)
    (h : data.source = "buffer") :
    (∀ f, f ∈ WS.deliveredContents params data ↔
        (some f ∈ data.content ∧ f.source = WS.channelKeySource params ∧
          (params.id = 0 ∨ params.id = data.clientReference))) ∧
      data ∉ WS.deliveredContents params data := by
  have hmem : ∀ f, f ∈ WS.deliveredContents params data ↔
      (some f ∈ data.content ∧ f.source = WS.channelKeySource params ∧
        (params.id = 0 ∨ params.id = data.clientReference)) := by
    intro f
    unfold WS.deliveredContents
    rw [if_pos (by simp [h])]
    simp only [List.mem_filterMap]
    constructor
    · rintro ⟨c, hc, hg⟩
      match c with
      | none => simp at hg
      | some content =>
        dsimp only at hg
        by_cases hcond : (content.source == WS.channelKeySource params &&
            (params.id == 0 || params.id == data.clientReference)) = true
        · rw [if_pos hcond] at hg
          obtain rfl : content = f := by simpa using hg
          simp only [Bool.and_eq_true, beq_iff_eq, Bool.or_eq_true] at hcond
          exact ⟨hc, hcond.1, hcond.2⟩
        · rw [if_neg hcond] at hg
          simp at hg
    · rintro ⟨hc, hsrc, hid⟩
      refine ⟨some f, hc, ?_⟩
      dsimp only
      rw [if_pos]
      simp only [Bool.and_eq_true, beq_iff_eq, Bool.or_eq_true]
      exact ⟨hsrc, hid⟩
  refine ⟨hmem, fun hself => ?_⟩
  have hin : some data ∈ data.content := ((hmem data).mp hself).1
  rcases data with ⟨s, r, c⟩
  have hlt := List.sizeOf_lt_of_mem hin
  simp only [WS.Frame.content] at hin hlt
  simp only [Option.some.sizeOf_spec, WS.Frame.mk.sizeOf_spec] at hlt
  omega

/-- C3, witness: the bundled matching inner frame scenario. -/
theorem listen_buffer_redispatch_witness :
    bufferFrame.source = "buffer" ∧
      bufferFrame ∉ WS.deliveredContents bufferListenerParams bufferFrame :=
  ⟨rfl, (listen_buffer_redispatch bufferListenerParams bufferFrame rfl).2⟩

/-! C7: boundary behaviour of the position interpolation. -/

/-- In a strictly ascending interval list the head timestamp bounds the
last timestamp. -/
theorem head_time_le_getLast_time :
    ∀ (l : List VehiclePos.TimeInterval) (a b : VehiclePos.TimeInterval),
      l.Chain' (fun x y => x.time < y.time) → l.head? = some a →
      l.getLast? = some b → a.time ≤ b.time := by
  intro l
  induction l with
  | nil => intro a b _ ha _; simp at ha
  | cons x t ih =>
    intro a b hc ha hb
    have hax : a = x := by simpa using ha.symm
    subst hax
    cases t with
    | nil =>
      have hbx : b = a := by simpa using hb.symm
      subst hbx
      exact le_refl _
    | cons y t2 =>
      have hxy : a.time < y.time := (List.chain'_cons.mp hc).1
      have hrest := (List.chain'_cons.mp hc).2
      have hb2 : (y :: t2).getLast? = some b := by
        simpa [List.getLast?_cons_cons] using hb
      exact le_trans (le_of_lt hxy) (ih y b hrest rfl hb2)

/-- C7 (corrected).  For a polyline trajectory with a non-empty,
ascending interval list: a query time before the first timestamp pins
to the first coordinate with the rotation of the first interval, a query
time after the last timestamp pins to the last coordinate with the
rotation of the last interval; with exactly one interval no interpolation is
ever attempted — the result pins to the first coordinate before the
timestamp, to the last coordinate after it, and is undefined exactly at
it (so a single-interval polyline is not a fixed point). -/
theorem getVehiclePosition_boundary_pinning (now : ℚ)
    (g : VehiclePos.LineGeom) (intervals : List VehiclePos.TimeInterval)
    (firstI lastI : VehiclePos.TimeInterval)
    (hfirst : intervals.head? = some firstI)
    (hlast : intervals.getLast? = some lastI)
    (hasc : intervals.Chain' (fun x y => x.time < y.time)) :
    (now < firstI.time →
      VehiclePos.getVehiclePosition now none (.lineString g) (some intervals)
        false = ⟨g.getFirstCoordinate, firstI.rot⟩) ∧
    (lastI.time < now →
      VehiclePos.getVehiclePosition now none (.lineString g) (some intervals)
        false = ⟨g.getLastCoordinate, lastI.rot⟩) ∧
    (intervals = [firstI] →
      VehiclePos.getVehiclePosition now none (.lineString g) (some intervals)
        false =
        if now < firstI.time then ⟨g.getFirstCoordinate, firstI.rot⟩
        else if firstI.time < now then ⟨g.getLastCoordinate, firstI.rot⟩
        else ⟨none, none⟩) := by
  refine ⟨?_, ?_, ?_⟩
  · intro hlt
    simp only [VehiclePos.getVehiclePosition, Option.isSome_none, Bool.false_eq_true,
      and_false, if_false, Option.getD_some, hfirst, hlast]
    rw [if_pos hlt]
  · intro hgt
    have hle : firstI.time ≤ lastI.time :=
      head_time_le_getLast_time intervals firstI lastI hasc hfirst hlast
    have hnotlt : ¬ now < firstI.time := not_lt.mpr (le_trans hle (le_of_lt hgt))
    simp only [VehiclePos.getVehiclePosition, Option.isSome_none, Bool.false_eq_true,
      and_false, if_false, Option.getD_some, hfirst, hlast]
    rw [if_neg hnotlt, if_pos hgt]
  · intro hone
    subst hone
    simp only [VehiclePos.getVehiclePosition, Option.isSome_none, Bool.false_eq_true,
      and_false, if_false, Option.getD_some, List.head?_cons, List.getLast?_singleton]
    by_cases h1 : now < firstI.time
    · rw [if_pos h1, if_pos h1]
    · rw [if_neg h1, if_neg h1]
      by_cases h2 : firstI.time < now
      · rw [if_pos h2, if_pos h2]
      · rw [if_neg h2, if_neg h2]
        simp [VehiclePos.interpolateScan]

/-- C7, witness: one query before a two-interval ascending list. -/
theorem getVehiclePosition_boundary_pinning_witness :
    VehiclePos.getVehiclePosition 5 none (.lineString singleIntervalGeom)
        (some [⟨10, 0, some 1⟩, ⟨100, 1, some 2⟩]) false =
      ⟨singleIntervalGeom.getFirstCoordinate, some 1⟩ :=
  (getVehiclePosition_boundary_pinning 5 singleIntervalGeom
      [⟨10, 0, some 1⟩, ⟨100, 1, some 2⟩] ⟨10, 0, some 1⟩ ⟨100, 1, some 2⟩
      rfl rfl
      (by simp only [List.chain'_cons, List.chain'_singleton, and_true]; decide)).1
    (by decide)

/-! C10: the vehicle query loop. -/

/-- The result of the collecting loop is the accumulator followed by a
sublist of the input whose members all hit the extent. -/
theorem collectVehicles_suffix (ext : ℚ × ℚ × ℚ × ℚ) (nb : Option Nat) :
    ∀ (l acc : List Tracker.TTraj),
      ∃ s, Tracker.collectVehicles ext nb l acc = acc ++ s ∧
        s.Sublist l ∧ (∀ t ∈ s, Tracker.hits ext t) := by
  intro l
  induction l with
  | nil => intro acc; exact ⟨[], by simp [Tracker.collectVehicles], by simp, by simp⟩
  | cons t rest ih =>
    intro acc
    unfold Tracker.collectVehicles
    rcases hco : t.coordinate with _ | c
    · dsimp only
      by_cases hbr : nb = some acc.length
      · exact ⟨[], by rw [if_pos hbr]; simp, by simp, by simp⟩
      · obtain ⟨s, hs, hsub, hhit⟩ := ih acc
        exact ⟨s, by rw [if_neg hbr]; exact hs, hsub.cons t, hhit⟩
    · dsimp only
      by_cases hin : Tracker.containsCoordinate ext c = true
      · rw [if_pos hin]
        by_cases hbr : nb = some (acc ++ [t]).length
        · refine ⟨[t], by rw [if_pos hbr], by simp, ?_⟩
          intro u hu
          obtain rfl : u = t := by simpa using hu
          exact ⟨c, hco, hin⟩
        · obtain ⟨s, hs, hsub, hhit⟩ := ih (acc ++ [t])
          refine ⟨t :: s, by rw [if_neg hbr]; simpa using hs, hsub.cons₂ t, ?_⟩
          intro u hu
          rcases List.mem_cons.mp hu with rfl | hu2
          · exact ⟨c, hco, hin⟩
          · exact hhit u hu2
      · rw [if_neg hin]
        by_cases hbr : nb = some acc.length
        · exact ⟨[], by rw [if_pos hbr]; simp, by simp, by simp⟩
        · obtain ⟨s, hs, hsub, hhit⟩ := ih acc
          exact ⟨s, by rw [if_neg hbr]; exact hs, hsub.cons t, hhit⟩

/-- The collecting loop respects a positive limit as long as the
accumulator is still below it. -/
theorem collectVehicles_length_le (ext : ℚ × ℚ × ℚ × ℚ) (m : Nat) :
    ∀ (l acc : List Tracker.TTraj), acc.length < m →
      (Tracker.collectVehicles ext (some m) l acc).length ≤ m := by
  intro l
  induction l with
  | nil => intro acc hacc; simpa [Tracker.collectVehicles] using le_of_lt hacc
  | cons t rest ih =>
    intro acc hacc
    unfold Tracker.collectVehicles
    rcases t.coordinate with _ | c
    · dsimp only
      by_cases hbr : some m = some acc.length
      · rw [if_pos hbr]; exact le_of_lt hacc
      · rw [if_neg hbr]; exact ih acc hacc
    · dsimp only
      by_cases hin : Tracker.containsCoordinate ext c = true
      · rw [if_pos hin]
        by_cases hbr : some m = some (acc ++ [t]).length
        · rw [if_pos hbr]
          have hlen : (acc ++ [t]).length = m := (Option.some.inj hbr).symm
          simp [hlen]
        · rw [if_neg hbr]
          apply ih
          have hne : m ≠ (acc ++ [t]).length := fun h => hbr (by rw [h])
          have hlen : (acc ++ [t]).length = acc.length + 1 := by simp
          omega
      · rw [if_neg hin]
        by_cases hbr : some m = some acc.length
        · rw [if_pos hbr]; exact le_of_lt hacc
        · rw [if_neg hbr]; exact ih acc hacc

/-- C10 (corrected).  `getVehiclesAtCoordinate` returns a sublist of
the store (store order preserved) whose member coordinates all lie in
the point buffered by ten times the resolution; it is empty when no
stored coordinate lies in that extent; and the unlimited call and every
positive limit `nb` return at most `nb` vehicles — the limit `0` is the
one exception, as the counterexample shows. -/
theorem getVehiclesAtCoordinate_spec (coordinate : ℚ × ℚ) (resolution : ℚ)
    (nb : Option Nat) (trajectories : List Tracker.TTraj) :
    (Tracker.getVehiclesAtCoordinate coordinate resolution nb
        trajectories).Sublist trajectories ∧
    (∀ t ∈ Tracker.getVehiclesAtCoordinate coordinate resolution nb trajectories,
      Tracker.hits (Tracker.bufferExtent
        (coordinate.1, coordinate.2, coordinate.1, coordinate.2)
        (10 * resolution)) t) ∧
    ((∀ t ∈ trajectories, ¬ Tracker.hits (Tracker.bufferExtent
        (coordinate.1, coordinate.2, coordinate.1, coordinate.2)
        (10 * resolution)) t) →
      Tracker.getVehiclesAtCoordinate coordinate resolution nb trajectories = []) ∧
    (∀ m, nb = some m → 1 ≤ m →
      (Tracker.getVehiclesAtCoordinate coordinate resolution nb
        trajectories).length ≤ m) := by
  obtain ⟨s, hs, hsub, hhit⟩ := collectVehicles_suffix
    (Tracker.bufferExtent (coordinate.1, coordinate.2, coordinate.1, coordinate.2)
      (10 * resolution)) nb trajectories []
  have hres : Tracker.getVehiclesAtCoordinate coordinate resolution nb
      trajectories = s := by
    unfold Tracker.getVehiclesAtCoordinate
    simpa using hs
  refine ⟨?_, ?_, ?_, ?_⟩
  · rw [hres]; exact hsub
  · intro t ht; rw [hres] at ht; exact hhit t ht
  · intro hnone
    rw [hres]
    refine List.eq_nil_iff_forall_not_mem.mpr fun t ht => ?_
    exact hnone t (hsub.subset ht) (hhit t ht)
  · rintro m rfl hm
    unfold Tracker.getVehiclesAtCoordinate
    exact collectVehicles_length_le _ m trajectories [] (by simpa using hm)

/-- C10, witness: limit one with one matching stored vehicle. -/
theorem getVehiclesAtCoordinate_spec_witness :
    (Tracker.getVehiclesAtCoordinate (0, 0) 1 (some 1)
      [storedVehicle]).length ≤ 1 :=
  (getVehiclesAtCoordinate_spec (0, 0) 1 (some 1) [storedVehicle]).2.2.2
    1 rfl (by decide)

/-! C5: pre-open buffering of `send`. -/

/-- Folding `send` over a closed-but-existing socket accumulates the
first occurrence of each distinct message, in both the pending buffer
and the flush listeners, and sends nothing on the wire. -/
theorem send_fold_closed (msgs : List String) :
    ∀ (buf w : List String),
      msgs.foldl WS.send ⟨true, false, buf, buf, w⟩ =
        ⟨true, false,
          msgs.foldl (fun acc m => if acc.contains m then acc else acc ++ [m]) buf,
          msgs.foldl (fun acc m => if acc.contains m then acc else acc ++ [m]) buf,
          w⟩ := by
  induction msgs with
  | nil => intro buf w; rfl
  | cons m rest ih =>
    intro buf w
    simp only [List.foldl_cons]
    by_cases hm : m ∈ buf
    · have hmc : buf.contains m = true := by simpa using hm
      have hsend : WS.send ⟨true, false, buf, buf, w⟩ m =
          ⟨true, false, buf, buf, w⟩ := by
        unfold WS.send
        simp [hm]
      rw [hsend, if_pos hmc]
      exact ih buf w
    · have hmc : ¬ buf.contains m = true := by simpa using hm
      have hsend : WS.send ⟨true, false, buf, buf, w⟩ m =
          ⟨true, false, buf ++ [m], buf ++ [m], w⟩ := by
        unfold WS.send
        simp [hm]
      rw [hsend, if_neg hmc]
      exact ih (buf ++ [m]) w

/-- Setting the bbox to the value already stored is a no-op. -/
theorem setBbox_same (s : WS.RTSendState) (v : List ℚ) (h : s.bbox = some v) :
    WS.setBbox s v = s := by
  unfold WS.setBbox
  rw [if_pos h]

/-- C5 (corrected).  While the socket exists but is not yet open, every
message handed to `send` is buffered with identical pending messages
de-duplicated (first occurrence kept), and the open event flushes
exactly that de-duplicated sequence once; at the realtime layer,
setting the viewport to one value any number of times before open
flushes exactly one `BBOX` command with that value — but each distinct
value produces its own `BBOX` command, as the counterexample shows. -/
theorem send_buffers_and_flushes_once (msgs : List String) (v : List ℚ)
    (n : Nat) :
    (WS.fireOpen (msgs.foldl WS.send ⟨true, false, [], [], []⟩)).wireSent =
        WS.dedupFirst msgs ∧
      (WS.fireOpen ((List.replicate n v).foldl WS.setBbox
          (WS.setBbox closedTransport v)).ws).wireSent = [WS.bboxMsg v] := by
  constructor
  · rw [send_fold_closed msgs [] []]
    rfl
  · have h1 : WS.setBbox closedTransport v =
        ⟨⟨true, false, [WS.bboxMsg v], [WS.bboxMsg v], []⟩, some v⟩ := by
      unfold WS.setBbox closedTransport
      rw [if_neg (by simp)]
      simp [WS.send]
    have h2 : (List.replicate n v).foldl WS.setBbox
        (WS.setBbox closedTransport v) = WS.setBbox closedTransport v := by
      induction n with
      | zero => rfl
      | succ k ihk =>
        rw [List.replicate_succ, List.foldl_cons,
          setBbox_same _ v (by rw [h1])]
        exact ihk
    rw [h2, h1]
    rfl

/-! C9: the `rendered` flag and `renderedTrajectories`. -/

/-- A render pass never clears the `rendered` flag. -/
theorem renderStep_rendered_mono (interpolate : Bool)
    (filterF : Option (Tracker.TTraj → Bool))
    (project : ℚ × ℚ → Option (ℚ × ℚ)) (currTime : ℚ) (t : Tracker.TTraj)
    (h : t.rendered = true) :
    (Tracker.renderStep interpolate filterF project currTime t).rendered
      = true := by
  unfold Tracker.renderStep
  split
  · exact h
  · split
    · exact h
    · dsimp only
      split
      · exact h
      · split
        · exact h
        · rfl

/-- When the projector returns null everywhere, a render pass leaves
every `rendered` flag unchanged. -/
theorem renderStep_rendered_of_projNone (interpolate : Bool)
    (filterF : Option (Tracker.TTraj → Bool))
    (project : ℚ × ℚ → Option (ℚ × ℚ)) (currTime : ℚ) (t : Tracker.TTraj)
    (hproj : ∀ c, project c = none) :
    (Tracker.renderStep interpolate filterF project currTime t).rendered
      = t.rendered := by
  unfold Tracker.renderStep
  split
  · rfl
  · split
    · rfl
    · dsimp only
      split
      · rfl
      · rename_i c _
        rw [hproj c]

/-- C9 (corrected).  After a render pass, `renderedTrajectories` is
exactly the set of trajectories whose `rendered` flag is set; the store
keeps all trajectories; the flag is never cleared, so a trajectory
rendered by an earlier pass stays in `renderedTrajectories` even when
the projector returns null on the most recent pass; in particular a
pass whose projector returns null everywhere changes no flag. -/
theorem renderTrajectories_rendered_flag (st : Tracker.TrackerState)
    (project : ℚ × ℚ → Option (ℚ × ℚ)) (currTime : ℚ) :
    (Tracker.renderTrajectories st project currTime).renderedTrajectories =
        (Tracker.renderTrajectories st project currTime).trajectories.filter
          (fun t => t.rendered) ∧
      (Tracker.renderTrajectories st project currTime).trajectories.length =
        st.trajectories.length ∧
      (∀ t ∈ st.trajectories, t.rendered = true →
        (Tracker.renderStep st.interpolate st.filterF project currTime
          t).rendered = true) ∧
      ((∀ c, project c = none) →
        (Tracker.renderTrajectories st project currTime).trajectories.map
            (fun t => t.rendered) =
          st.trajectories.map (fun t => t.rendered)) := by
  refine ⟨rfl, by simp [Tracker.renderTrajectories], ?_, ?_⟩
  · intro t _ h
    exact renderStep_rendered_mono st.interpolate st.filterF project currTime t h
  · intro hproj
    unfold Tracker.renderTrajectories
    dsimp only
    rw [List.map_map]
    apply List.map_congr_left
    intro t _
    exact renderStep_rendered_of_projNone st.interpolate st.filterF project
      currTime t hproj

/-- C9, witness: the all-null projector pass over the already rendered
store. -/
theorem renderTrajectories_rendered_flag_witness :
    (Tracker.renderTrajectories passOne (fun _ => none) 50).trajectories.map
        (fun t => t.rendered) =
      passOne.trajectories.map (fun t => t.rendered) :=
  (renderTrajectories_rendered_flag passOne (fun _ => none) 50).2.2.2
    (fun _ => rfl)

/-! C8: the departure filtering window and the boarding rule. -/

/-- Every record the filtering loop outputs has its time strictly
inside the window, provided the records already accumulated do. -/
theorem filterLoop_window (past future : Int) :
    ∀ (l : List Departures.Departure) (platforms : List String)
      (prev : Option Departures.Departure) (acc : List Departures.Departure),
      (∀ d ∈ acc, past < d.time ∧ d.time < future) →
      ∀ d ∈ Departures.filterLoop past future l platforms prev acc,
        past < d.time ∧ d.time < future := by
  intro l
  induction l with
  | nil =>
    intro platforms prev acc hacc d hd
    exact hacc d hd
  | cons d rest ih =>
    intro platforms prev acc hacc e he
    unfold Departures.filterLoop at he
    by_cases h : past < d.time ∧ d.time < future
    · rw [if_pos h] at he
      refine ih _ _ _ ?_ e he
      intro x hx
      rcases List.mem_cons.mp hx with rfl | hx2
      · constructor
        · split <;> split <;> split <;> exact h.1
        · split <;> split <;> split <;> exact h.2
      · exact hacc x hx2
    · rw [if_neg h] at he
      exact ih _ _ _ hacc e he

/-- C8 (corrected).  Every record of the output has its time strictly
inside the `maxDepartureAge`-minute window around `now` (so records
outside the window are excluded entirely); and in the two-boarding
scenario at one platform, ten seconds apart inside the window, it is
the EARLIER record that is marked `HIDDEN` (kept in the output), while
the later one keeps its `BOARDING` state — the backwards loop registers
the platform of the later record first. -/
theorem filterDepartures_window_and_boarding (now maxDepartureAge : Int)
    (depObject : List Departures.Departure) (sortByMinArrivalTime : Bool) :
    (∀ d ∈ Departures.filterDepartures now maxDepartureAge depObject
        sortByMinArrivalTime,
      now - maxDepartureAge * 60000 < d.time ∧
        d.time < now + maxDepartureAge * 60000) ∧
      Departures.filterDepartures 1000000000 30 [earlyBoarding, lateBoarding]
          false =
        [{ earlyBoarding with state := "HIDDEN" }, lateBoarding] := by
  constructor
  · intro d hd
    exact filterLoop_window (now - maxDepartureAge * 60000)
      (now + maxDepartureAge * 60000) _ [] none [] (by simp) d hd
  · decide

/-- C8, witness: the hidden earlier record of the scenario lies inside
the window. -/
theorem filterDepartures_window_witness :
    1000000000 - 30 * 60000 <
        ({ earlyBoarding with state := "HIDDEN" } : Departures.Departure).time ∧
      ({ earlyBoarding with state := "HIDDEN" } : Departures.Departure).time <
        1000000000 + 30 * 60000 :=
  (filterDepartures_window_and_boarding 1000000000 30
      [earlyBoarding, lateBoarding] false).1
    { earlyBoarding with state := "HIDDEN" } (by decide)

/-! C2: identity of subscriptions in the registry. -/

/-- The Boolean key test of `subscribe` agrees with `subKey`. -/
theorem subscribe_pred_iff (channel : String) (cb : Nat) (su : WS.Subscription) :
    (channel == su.params.channel && cb == su.cb) = true ↔
      WS.subKey su = (channel, cb) := by
  constructor
  · intro h
    simp only [Bool.and_eq_true, beq_iff_eq] at h
    show (su.params.channel, su.cb) = (channel, cb)
    rw [← h.1, ← h.2]
  · intro h
    have h1 : su.params.channel = channel := congrArg Prod.fst h
    have h2 : su.cb = cb := congrArg Prod.snd h
    simp [h1, h2]

/-- The `findIndex`-and-assign idiom of `subscribe` is
replace-first-or-append. -/
theorem findIdxSet_eq_upsert (channel : String) (cb : Nat)
    (n : WS.Subscription) :
    ∀ l : List WS.Subscription,
      (match l.findIdx?
          (fun subcr => channel == subcr.params.channel && cb == subcr.cb) with
        | some i => l.set i n
        | none => l ++ [n]) = WS.upsertSubscription channel cb n l := by
  intro l
  induction l with
  | nil => rfl
  | cons su rest ih =>
    by_cases hp : (channel == su.params.channel && cb == su.cb) = true
    · rw [List.findIdx?_cons, if_pos hp]
      unfold WS.upsertSubscription
      rw [if_pos hp]
      rfl
    · rw [List.findIdx?_cons, if_neg hp, List.findIdx?_succ]
      unfold WS.upsertSubscription
      rw [if_neg hp]
      cases h2 : rest.findIdx?
          (fun subcr => channel == subcr.params.channel && cb == subcr.cb) with
      | none =>
        rw [h2] at ih
        dsimp only at ih
        show su :: (rest ++ [n]) = su :: WS.upsertSubscription channel cb n rest
        rw [← ih]
      | some j =>
        rw [h2] at ih
        dsimp only at ih
        show su :: rest.set j n = su :: WS.upsertSubscription channel cb n rest
        rw [← ih]

/-- JS `subscribe` changes the registry exactly by an upsert keyed on
(channel, callback). -/
theorem subscribe_subscriptions_eq (s : WS.WSState) (params : WS.Params)
    (cb : Nat) (quiet : Bool) :
    (WS.subscribe s params cb quiet).subscriptions =
      WS.upsertSubscription params.channel cb ⟨params, cb, quiet⟩
        s.subscriptions := by
  unfold WS.subscribe
  rw [← findIdxSet_eq_upsert params.channel cb ⟨params, cb, quiet⟩
    s.subscriptions]
  cases hfi : s.subscriptions.findIdx?
      (fun subcr => params.channel == subcr.params.channel && cb == subcr.cb) <;>
    simp only [hfi] <;> split <;> rfl

/-- Length effect of the upsert. -/
theorem upsert_length (channel : String) (cb : Nat) (n : WS.Subscription) :
    ∀ l : List WS.Subscription,
      (WS.upsertSubscription channel cb n l).length =
        if l.any (fun su => channel == su.params.channel && cb == su.cb)
        then l.length else l.length + 1 := by
  intro l
  induction l with
  | nil => rfl
  | cons su rest ih =>
    by_cases hp : (channel == su.params.channel && cb == su.cb) = true
    · unfold WS.upsertSubscription
      rw [if_pos hp]
      simp [hp]
    · unfold WS.upsertSubscription
      rw [if_neg hp]
      simp only [List.length_cons, List.any_cons, hp, Bool.false_or, ih]
      split <;> simp

/-- Entries with another key survive the upsert. -/
theorem upsert_mem_of_ne (channel : String) (cb : Nat) (n : WS.Subscription) :
    ∀ (l : List WS.Subscription) (su : WS.Subscription), su ∈ l →
      WS.subKey su ≠ (channel, cb) →
      su ∈ WS.upsertSubscription channel cb n l := by
  intro l
  induction l with
  | nil => intro su h; simp at h
  | cons su2 rest ih =>
    intro su hmem hne
    unfold WS.upsertSubscription
    by_cases hp : (channel == su2.params.channel && cb == su2.cb) = true
    · rw [if_pos hp]
      rcases List.mem_cons.mp hmem with rfl | h2
      · exact absurd ((subscribe_pred_iff channel cb su).mp hp) hne
      · exact List.mem_cons_of_mem _ h2
    · rw [if_neg hp]
      rcases List.mem_cons.mp hmem with rfl | h2
      · exact List.mem_cons_self _ _
      · exact List.mem_cons_of_mem _ (ih su h2 hne)

/-- Any key present after the upsert was present before or is the
upserted key. -/
theorem upsert_keys_subset (channel : String) (cb : Nat)
    (n : WS.Subscription) (hkey : WS.subKey n = (channel, cb)) :
    ∀ (l : List WS.Subscription) (x : String × Nat),
      x ∈ (WS.upsertSubscription channel cb n l).map WS.subKey →
      x ∈ l.map WS.subKey ∨ x = (channel, cb) := by
  intro l
  induction l with
  | nil =>
    intro x hx
    simp [WS.upsertSubscription] at hx
    right; rw [hx, hkey]
  | cons su rest ih =>
    intro x hx
    unfold WS.upsertSubscription at hx
    by_cases hp : (channel == su.params.channel && cb == su.cb) = true
    · rw [if_pos hp] at hx
      rcases List.mem_map.mp hx with ⟨y, hy, rfl⟩
      rcases List.mem_cons.mp hy with rfl | h2
      · right; exact hkey
      · left; exact List.mem_map_of_mem _ (List.mem_cons_of_mem _ h2)
    · rw [if_neg hp] at hx
      rcases List.mem_map.mp hx with ⟨y, hy, rfl⟩
      rcases List.mem_cons.mp hy with rfl | h2
      · left; exact List.mem_map_of_mem _ (List.mem_cons_self _ _)
      · rcases ih (WS.subKey y) (List.mem_map_of_mem _ h2) with h3 | h3
        · left; exact List.mem_cons_of_mem _ (by simpa using h3)
        · right; exact h3

/-- The upsert keeps the per-key uniqueness of the registry. -/
theorem upsert_nodup (channel : String) (cb : Nat) (n : WS.Subscription)
    (hkey : WS.subKey n = (channel, cb)) :
    ∀ l : List WS.Subscription, (l.map WS.subKey).Nodup →
      ((WS.upsertSubscription channel cb n l).map WS.subKey).Nodup := by
  intro l
  induction l with
  | nil => intro _; simp [WS.upsertSubscription]
  | cons su rest ih =>
    intro hnd
    rw [List.map_cons, List.nodup_cons] at hnd
    unfold WS.upsertSubscription
    by_cases hp : (channel == su.params.channel && cb == su.cb) = true
    · rw [if_pos hp, List.map_cons, List.nodup_cons, hkey,
        ← (subscribe_pred_iff channel cb su).mp hp]
      exact hnd
    · rw [if_neg hp, List.map_cons, List.nodup_cons]
      refine ⟨fun hin => ?_, ih hnd.2⟩
      rcases upsert_keys_subset channel cb n hkey rest _ hin with h3 | h3
      · exact hnd.1 h3
      · exact hp ((subscribe_pred_iff channel cb su).mpr h3)

/-- With per-key uniqueness, the upsert leaves exactly one entry with
the upserted key. -/
theorem upsert_countP (channel : String) (cb : Nat) (n : WS.Subscription)
    (hkey : WS.subKey n = (channel, cb)) :
    ∀ l : List WS.Subscription, (l.map WS.subKey).Nodup →
      ((WS.upsertSubscription channel cb n l).countP
        (fun su => WS.subKey su == (channel, cb))) = 1 := by
  intro l
  induction l with
  | nil =>
    intro _
    simp [WS.upsertSubscription, List.countP_cons, hkey]
  | cons su rest ih =>
    intro hnd
    rw [List.map_cons, List.nodup_cons] at hnd
    unfold WS.upsertSubscription
    by_cases hp : (channel == su.params.channel && cb == su.cb) = true
    · rw [if_pos hp]
      have hzero : rest.countP (fun su => WS.subKey su == (channel, cb)) = 0 := by
        rw [List.countP_eq_zero]
        intro a ha hkeya
        apply hnd.1
        have h1 : WS.subKey a = (channel, cb) := by simpa using hkeya
        have h2 : WS.subKey su = (channel, cb) :=
          (subscribe_pred_iff channel cb su).mp hp
        rw [h2, ← h1]
        exact List.mem_map_of_mem _ ha
      rw [List.countP_cons, hzero]
      simp [hkey]
    · rw [if_neg hp, List.countP_cons]
      have : (WS.subKey su == (channel, cb)) = false := by
        rw [beq_eq_false_iff_ne]
        intro h
        exact hp ((subscribe_pred_iff channel cb su).mpr h)
      rw [this, ih hnd.2]
      simp

/-- C2 (corrected).  Subscriptions are unique per (channel name,
callback) pair — the argument string is NOT part of the identity:
re-subscribing with the same channel and handler replaces the prior
entry in place (even when the argument differs, as the counterexample
shows), the registry keeps at most one entry per such pair, entries
with a different channel or handler survive untouched, and the registry
grows only when the pair was absent. -/
theorem subscribe_unique_per_channel_and_callback (s : WS.WSState)
    (params : WS.Params) (cb : Nat) (quiet : Bool)
    (hnodup : (s.subscriptions.map WS.subKey).Nodup) :
    (((WS.subscribe s params cb quiet).subscriptions.map WS.subKey).Nodup) ∧
      ((WS.subscribe s params cb quiet).subscriptions.countP
        (fun su => WS.subKey su == (params.channel, cb)) = 1) ∧
      (∀ su ∈ s.subscriptions, WS.subKey su ≠ (params.channel, cb) →
        su ∈ (WS.subscribe s params cb quiet).subscriptions) ∧
      ((WS.subscribe s params cb quiet).subscriptions.length =
        if s.subscriptions.any
            (fun su => params.channel == su.params.channel && cb == su.cb)
        then s.subscriptions.length else s.subscriptions.length + 1) := by
  rw [subscribe_subscriptions_eq s params cb quiet]
  refine ⟨upsert_nodup params.channel cb ⟨params, cb, quiet⟩ rfl
      s.subscriptions hnodup,
    upsert_countP params.channel cb ⟨params, cb, quiet⟩ rfl
      s.subscriptions hnodup,
    fun su hmem hne => upsert_mem_of_ne params.channel cb ⟨params, cb, quiet⟩
      s.subscriptions su hmem hne,
    upsert_length params.channel cb ⟨params, cb, quiet⟩ s.subscriptions⟩

/-- C2, witness: a first subscribe into the empty registry. -/
theorem subscribe_unique_witness :
    (WS.subscribe WS.initState vehicleParams 4 false).subscriptions.countP
      (fun su => WS.subKey su == ("vehicle", 4)) = 1 :=
  (subscribe_unique_per_channel_and_callback WS.initState vehicleParams 4
    false (by simp [WS.initState])).2.1

/-! C1: GET/SUB/DEL traffic discipline per channel key. -/

/-- Reading back the key just written in `this.subscribed`. -/
theorem lookup_append_single (k : String) (v : Bool) :
    ∀ m : List (String × Bool), m.any (fun e => e.1 == k) = false →
      WS.lookupSubscribed (m ++ [(k, v)]) k = v := by
  intro m
  induction m with
  | nil => intro _; simp [WS.lookupSubscribed]
  | cons e rest ih =>
    intro h
    rw [List.any_cons, Bool.or_eq_false_iff] at h
    unfold WS.lookupSubscribed
    rw [List.cons_append, List.find?_cons_of_neg _ (by simp [h.1])]
    exact ih h.2

/-- Reading back the key just overwritten in `this.subscribed`. -/
theorem lookup_overwrite (k : String) (v : Bool) :
    ∀ m : List (String × Bool), m.any (fun e => e.1 == k) = true →
      WS.lookupSubscribed
        (m.map (fun e => if e.1 == k then (k, v) else e)) k = v := by
  intro m
  induction m with
  | nil => intro h; simp at h
  | cons e rest ih =>
    intro h
    rw [List.any_cons] at h
    by_cases he : (e.1 == k) = true
    · unfold WS.lookupSubscribed
      rw [List.map_cons, if_pos he]
      have hfind : List.find? (fun e => e.1 == k)
          ((k, v) :: List.map (fun e => if (e.1 == k) = true then (k, v) else e)
            rest) = some (k, v) :=
        List.find?_cons_of_pos _ (by simp)
      rw [hfind]
    · unfold WS.lookupSubscribed
      rw [List.map_cons, if_neg he]
      have hfind : List.find? (fun e => e.1 == k)
          (e :: List.map (fun e => if (e.1 == k) = true then (k, v) else e)
            rest) = List.find? (fun e => e.1 == k)
          (List.map (fun e => if (e.1 == k) = true then (k, v) else e) rest) :=
        List.find?_cons_of_neg _ he
      rw [hfind]
      have h2 : rest.any (fun e => e.1 == k) = true := by
        rcases Bool.or_eq_true_iff.mp h with h3 | h3
        · exact absurd h3 he
        · exact h3
      exact ih h2

/-- JS `this.subscribed[k] = v` followed by reading `this.subscribed[k]`. -/
theorem lookup_setSubscribed_self (m : List (String × Bool)) (k : String)
    (v : Bool) : WS.lookupSubscribed (WS.setSubscribed m k v) k = v := by
  unfold WS.setSubscribed
  by_cases hany : m.any (fun e => e.1 == k) = true
  · rw [if_pos hany]
    exact lookup_overwrite k v m hany
  · rw [if_neg hany]
    exact lookup_append_single k v m (Bool.not_eq_true _ ▸ Bool.of_not_eq_true hany)


/-- Effect of one `subscribe` call on the sent log and on the marked
bit of its own channel key: `GET k` and `SUB k` go out exactly when the
key is unmarked and the subscribe is non-quiet, and the key is marked
afterwards in every case. -/
theorem subscribe_step (s : WS.WSState) (p0 : WS.Params) (k : String)
    (cb : Nat) (quiet : Bool) (hkey : WS.getRequestString "" p0 = k) :
    (WS.subscribe s p0 cb quiet).sent =
        s.sent ++ (if WS.marked s k = false ∧ quiet = false then
          [WS.Msg.GET k, WS.Msg.SUB k] else []) ∧
      WS.marked (WS.subscribe s p0 cb quiet) k = true := by
  by_cases hm : WS.marked s k = false
  · have hm2 : WS.lookupSubscribed s.subscribed k = false := hm
    constructor
    · by_cases hq : quiet = false
      · simp [WS.subscribe, hkey, hm2, hm, hq]
      · simp [WS.subscribe, hkey, hm2, hm, hq]
    · simp [WS.subscribe, WS.marked, hkey, hm2, lookup_setSubscribed_self]
  · have hm2 : WS.lookupSubscribed s.subscribed k = true := by
      unfold WS.marked at hm
      simpa using hm
    constructor
    · simp [WS.subscribe, hkey, hm2, WS.marked]
    · simp [WS.subscribe, WS.marked, hkey, hm2]

/-- Effect of one `unsubscribe` call on the sent log and the marked
bit: `DEL k` goes out exactly under `delCondition`, which requires the
key to be marked, and unmarks it. -/
theorem unsubscribe_step (s : WS.WSState) (k : String) (cb : Option Nat) :
    ((WS.delCondition s k cb →
        (WS.unsubscribe s k cb).sent = s.sent ++ [WS.Msg.DEL k] ∧
          WS.marked (WS.unsubscribe s k cb) k = false) ∧
      (¬ WS.delCondition s k cb →
        (WS.unsubscribe s k cb).sent = s.sent ∧
          WS.marked (WS.unsubscribe s k cb) k = WS.marked s k)) := by
  constructor
  · intro hdel
    unfold WS.unsubscribe
    rw [if_pos hdel]
    exact ⟨rfl, lookup_setSubscribed_self _ _ _⟩
  · intro hdel
    unfold WS.unsubscribe
    rw [if_neg hdel]
    exact ⟨rfl, rfl⟩

/-- A marked key survives `delCondition`: the condition demands the key
to be currently marked. -/
theorem delCondition_marked (s : WS.WSState) (k : String) (cb : Option Nat)
    (h : WS.delCondition s k cb) : WS.marked s k = true :=
  h.2.1

/-- The count invariant carried through a run on one channel key:
`GET` and `SUB` counts agree, and the `GET` count exceeds the `DEL`
count only by the marked bit. -/
def trafficInv (k : String) (s : WS.WSState) : Prop :=
  s.sent.count (WS.Msg.GET k) = s.sent.count (WS.Msg.SUB k) ∧
    s.sent.count (WS.Msg.GET k) ≤
      s.sent.count (WS.Msg.DEL k) + (if WS.marked s k = true then 1 else 0)

/-- One step preserves the count invariant. -/
theorem trafficInv_step (p0 : WS.Params) (k : String)
    (hkey : WS.getRequestString "" p0 = k) (s : WS.WSState) (e : WS.WSEvent)
    (he : WS.onChannel p0 k e = true) (hinv : trafficInv k s) :
    trafficInv k (WS.step s e) := by
  obtain ⟨h1, h2⟩ := hinv
  cases e with
  | sub params cb quiet =>
    have hp : params = p0 := by simpa [WS.onChannel] using he
    subst hp
    obtain ⟨hsent, hmarked⟩ := subscribe_step s params k cb quiet hkey
    constructor
    · rw [WS.step, hsent, List.count_append, List.count_append, h1]
      congr 1
      split
      · simp
      · simp
    · rw [WS.step, hsent, List.count_append, List.count_append, hmarked,
        if_pos rfl]
      split
      · rename_i hcond
        have hmf : WS.marked s k = false := hcond.1
        rw [hmf] at h2
        simp only [Bool.false_eq_true, if_false] at h2
        simp only [List.count_cons, List.count_nil]
        have hGS : (WS.Msg.SUB k == WS.Msg.GET k) = false := by simp
        have hGG : (WS.Msg.GET k == WS.Msg.GET k) = true := by simp
        have hGD : (WS.Msg.SUB k == WS.Msg.DEL k) = false := by simp
        have hDD : (WS.Msg.GET k == WS.Msg.DEL k) = false := by simp
        simp [hGS, hGG, hGD, hDD]
        omega
      · simp only [List.count_nil, Nat.add_zero]
        split at h2
        · omega
        · omega
  | unsub source cb =>
    have hsrc : source = k := by simpa [WS.onChannel] using he
    subst hsrc
    by_cases hdel : WS.delCondition s source cb
    · obtain ⟨hsent, hmarked⟩ := (unsubscribe_step s source cb).1 hdel
      have hms : WS.marked s source = true := delCondition_marked s source cb hdel
      constructor
      · rw [WS.step, hsent, List.count_append, List.count_append, h1]
        congr 1
      · rw [WS.step, hsent, List.count_append, List.count_append, hmarked]
        rw [hms, if_pos rfl] at h2
        have hGDel : (WS.Msg.GET source == WS.Msg.DEL source) = false := by simp
        have hDelDel : (WS.Msg.DEL source == WS.Msg.DEL source) = true := by simp
        simp [List.count_cons, hGDel, hDelDel]
        omega
    · obtain ⟨hsent, hmarked⟩ := (unsubscribe_step s source cb).2 hdel
      constructor
      · rw [WS.step, hsent, h1]
      · rw [WS.step, hsent, hmarked]
        exact h2

/-- The count invariant holds along any run on one channel key. -/
theorem trafficInv_run (p0 : WS.Params) (k : String)
    (hkey : WS.getRequestString "" p0 = k) :
    ∀ (evs : List WS.WSEvent) (s : WS.WSState),
      (∀ e ∈ evs, WS.onChannel p0 k e = true) → trafficInv k s →
      trafficInv k (WS.run s evs) := by
  intro evs
  induction evs with
  | nil => intro s _ hinv; exact hinv
  | cons e rest ih =>
    intro s hevs hinv
    rw [WS.run, List.foldl_cons]
    exact ih (WS.step s e) (fun x hx => hevs x (List.mem_cons_of_mem e hx))
      (trafficInv_step p0 k hkey s e (hevs e (List.mem_cons_self e rest)) hinv)

/-- Subscribe-only runs from a marked state send nothing and keep the
key marked. -/
theorem run_marked_noUnsub (p0 : WS.Params) (k : String)
    (hkey : WS.getRequestString "" p0 = k) :
    ∀ (evs : List WS.WSEvent) (s : WS.WSState),
      (∀ e ∈ evs, WS.onChannel p0 k e = true) → WS.noUnsub evs = true →
      WS.marked s k = true →
      (WS.run s evs).sent = s.sent ∧ WS.marked (WS.run s evs) k = true := by
  intro evs
  induction evs with
  | nil => intro s _ _ hm; exact ⟨rfl, hm⟩
  | cons e rest ih =>
    intro s hevs hnou hm
    cases e with
    | unsub source cb =>
      rw [WS.noUnsub, List.all_cons] at hnou
      simp at hnou
    | sub params cb quiet =>
      have hp : params = p0 := by
        simpa [WS.onChannel] using hevs _ (List.mem_cons_self _ rest)
      subst hp
      obtain ⟨hsent, hmarked⟩ := subscribe_step s params k cb quiet hkey
      rw [hm] at hsent
      simp only [Bool.true_eq_false, false_and, if_false] at hsent
      rw [List.append_nil] at hsent
      rw [WS.run, List.foldl_cons]
      have hnou2 : WS.noUnsub rest = true := by
        rw [WS.noUnsub, List.all_cons] at hnou
        rw [WS.noUnsub]
        exact ((Bool.and_eq_true _ _).mp hnou).2
      have hrest := ih (WS.step s (WS.WSEvent.sub params cb quiet))
        (fun x hx => hevs x (List.mem_cons_of_mem _ hx)) hnou2
        (by rw [WS.step]; exact hmarked)
      rw [WS.run] at hrest
      exact ⟨by rw [hrest.1, WS.step, hsent], hrest.2⟩

/-- C1 (corrected).  For every sequence of subscribe/unsubscribe calls
on one channel key `k`: `GET k` and `SUB k` are sent in equal numbers;
`GET k` is sent at most once more than `DEL k` (so between two `GET`s a
`DEL` must occur — never more than one `GET`/`SUB` while the channel
stays subscribed); with no unsubscribes, exactly one `GET`/`SUB` pair is
sent when the FIRST subscribe of the sequence is non-quiet and nothing
at all otherwise — a quiet first subscribe marks the channel and
suppresses `GET`/`SUB` for all later subscribes, which is where the
claim as stated fails; and an unsubscribe emits `DEL k` exactly when
the channel is marked, it removes the last subscriptions of the
channel, and at least one removed subscription was non-quiet. -/
theorem websocket_traffic_discipline (p0 : WS.Params) (k : String)
    (hkey : WS.getRequestString "" p0 = k) (evs : List WS.WSEvent)
    (hevs : ∀ e ∈ evs, WS.onChannel p0 k e = true) :
    ((WS.run WS.initState evs).sent.count (WS.Msg.GET k) =
        (WS.run WS.initState evs).sent.count (WS.Msg.SUB k)) ∧
      ((WS.run WS.initState evs).sent.count (WS.Msg.GET k) ≤
        (WS.run WS.initState evs).sent.count (WS.Msg.DEL k) + 1) ∧
      (WS.noUnsub evs = true →
        (WS.run WS.initState evs).sent =
          (if WS.firstSubNonQuiet evs then [WS.Msg.GET k, WS.Msg.SUB k]
            else [])) ∧
      (∀ (t : WS.WSState) (cb : Option Nat),
        ((WS.unsubscribe t k cb).sent = t.sent ++ [WS.Msg.DEL k] ↔
          WS.delCondition t k cb) ∧
        (¬ WS.delCondition t k cb → (WS.unsubscribe t k cb).sent = t.sent)) := by
  have hinit : trafficInv k WS.initState := by
    constructor
    · rfl
    · simp [WS.initState, WS.marked, WS.lookupSubscribed]
  have hinv := trafficInv_run p0 k hkey evs WS.initState hevs hinit
  refine ⟨hinv.1, ?_, ?_, ?_⟩
  · refine le_trans hinv.2 ?_
    split <;> omega
  · intro hnou
    cases evs with
    | nil =>
      simp [WS.run, WS.initState, WS.firstSubNonQuiet]
    | cons e rest =>
      cases e with
      | unsub source cb =>
        rw [WS.noUnsub, List.all_cons] at hnou
        simp at hnou
      | sub params cb quiet =>
        have hp : params = p0 := by
          simpa [WS.onChannel] using hevs _ (List.mem_cons_self _ rest)
        subst hp
        obtain ⟨hsent, hmarked⟩ :=
          subscribe_step WS.initState params k cb quiet hkey
        have hm0 : WS.marked WS.initState k = false := by
          simp [WS.initState, WS.marked, WS.lookupSubscribed]
        rw [hm0] at hsent
        have hnou2 : WS.noUnsub rest = true := by
          rw [WS.noUnsub, List.all_cons] at hnou
          rw [WS.noUnsub]
          exact ((Bool.and_eq_true _ _).mp hnou).2
        have hrest := run_marked_noUnsub params k hkey rest
          (WS.step WS.initState (WS.WSEvent.sub params cb quiet))
          (fun x hx => hevs x (List.mem_cons_of_mem _ hx)) hnou2
          (by rw [WS.step]; exact hmarked)
        rw [WS.run, List.foldl_cons]
        rw [WS.run] at hrest
        rw [hrest.1, WS.step, hsent]
        have hfirst : WS.firstSubNonQuiet
            (WS.WSEvent.sub params cb quiet :: rest) = !quiet := by
          rw [WS.firstSubNonQuiet, List.find?_cons_of_pos _ (by rfl)]
        rw [hfirst]
        cases quiet <;> simp [WS.initState]
  · intro t cb
    refine ⟨⟨fun hsent => ?_, fun hdel => ((unsubscribe_step t k cb).1 hdel).1⟩,
      fun hdel => ((unsubscribe_step t k cb).2 hdel).1⟩
    by_cases hdel : WS.delCondition t k cb
    · exact hdel
    · exfalso
      rw [((unsubscribe_step t k cb).2 hdel).1] at hsent
      have := congrArg List.length hsent
      simp at this

/-- C1, witness: a full subscribe/subscribe/unsubscribe/unsubscribe
round trip on channel `vehicle`. -/
theorem websocket_traffic_discipline_witness :
    (WS.run WS.initState roundTripEvents).sent.count
        (WS.Msg.GET "vehicle") ≤
      (WS.run WS.initState roundTripEvents).sent.count
        (WS.Msg.DEL "vehicle") + 1 :=
  (websocket_traffic_discipline vehicleParams "vehicle" (by decide)
    roundTripEvents (by decide)).2.1
